import Mathlib

/-!
# PSVita joystick driver (`src/joystick/vita/SDL_sysjoystick.c`)

A shallow embedding of the two algorithmic parts of the driver:

* the response-curve table `analog_map`, filled by the loop at the top of
  `VITA_JoystickInit` from the Bezier evaluator `calc_bezier_y`;
* the per-slot change detection of `VITA_JoystickUpdate`.

Modelling conventions.

* C `int` values are `Int`; the curve arithmetic is carried out without
  wrap-around (the default control points stay far inside 32 bits).
* The curve is evaluated in two ways. `lerp` and `calc_bezier_y` take the
  `float` parameter `t` as an exact rational and multiply exactly, as the
  statements about the table of the source's control points say.
  `lerp_binary32` and `calc_bezier_y_binary32` carry out the same steps in
  binary32: the `int` difference is converted to `float` and the product is
  rounded, both to nearest with ties to even (exponent range taken as
  unbounded: the values met are 0 or lie far inside the normal range). The two
  give the same table for the control points of the source
  (`analog_map_binary32`). The conversion `(int)` is truncation toward zero.
* `unsigned char` and `unsigned int` values are `Nat`; the only operations on
  them are comparison, `^` and `&`, none of which can overflow.
* The static arrays of four entries are functions on `Fin 4`.
* The vendor call `sceCtrlPeekBufferPositive2` is a function from the port to
  either a sample or a failure; a failure leaves the buffer as it was.
* A call of `SDL_SendJoystickAxis` / `SDL_SendJoystickButton` is recorded as an
  `Event` carrying the arguments written at the call site.
-/

namespace VitaJoystick

/-! ## The response curve -/

/-- The two `int` coordinates of an `SDL_Point`. -/
structure SDL_Point where
  x : Int
  y : Int
deriving DecidableEq, Repr

/-- The C conversion `(int)v` of a floating value `v`, taken on the exact
rational: the fraction is dropped, rounding toward zero. -/
def truncToInt (q : ℚ) : Int := Int.tdiv q.num q.den

/-- Linear interpolation between two points, `lerp` of the source with the
product taken exactly on the rationals:
`dest->x = first->x + (int)((second->x - first->x) * t)`, likewise for `y`. -/
def lerp (first second : SDL_Point) (t : ℚ) : SDL_Point :=
  { x := first.x + truncToInt (((second.x - first.x : Int) : ℚ) * t),
    y := first.y + truncToInt (((second.y - first.y : Int) : ℚ) * t) }

/-- Evaluation of the Bezier curve through the four control points at `t`,
`calc_bezier_y` of the source with the four static points as arguments. -/
def calc_bezier_y (p0 p1 p2 p3 : SDL_Point) (t : ℚ) : Int :=
  let ab := lerp p0 p1 t
  let bc := lerp p1 p2 t
  let cd := lerp p2 p3 t
  let abbc := lerp ab bc t
  let bccd := lerp bc cd t
  let dest := lerp abbc bccd t
  dest.y

/-- One pass of the body of the table loop of `VITA_JoystickInit` for loop
index `i`, with `curve i` standing for `calc_bezier_y((float)i / 127.0f)`:
`analog_map[i + 128] = curve i; analog_map[127 - i] = -1 * analog_map[i + 128]`. -/
def initLoopBody (curve : Nat → Int) (analog_map : List Int) (i : Nat) : List Int :=
  let m1 := analog_map.set (i + 128) (curve i)
  m1.set (127 - i) (-1 * m1.getD (i + 128) 0)

/-- The loop `for (i = 0; i < 128; i++)` of `VITA_JoystickInit`, run on the
zero-initialised static array of 256 entries. -/
def initLoop (curve : Nat → Int) : List Int :=
  (List.range 128).foldl (initLoopBody curve) (List.replicate 256 0)

/-- The table part of `VITA_JoystickInit`: the loop with
`t = (float)i / 127.0f` and the curve through the given control points. (The
enumeration of paired controllers that follows it in the source is left out.) -/
def VITA_JoystickInit (p0 p1 p2 p3 : SDL_Point) : List Int :=
  initLoop (fun i => calc_bezier_y p0 p1 p2 p3 ((i : ℚ) / 127))

/-- Control point `a` of the source. -/
def a : SDL_Point := { x := 0, y := 0 }
/-- Control point `b` of the source. -/
def b : SDL_Point := { x := 0, y := 0 }
/-- Control point `c` of the source. -/
def c : SDL_Point := { x := 128, y := 32767 }
/-- Control point `d` of the source. -/
def d : SDL_Point := { x := 128, y := 32767 }

/-- The static table `analog_map` as `VITA_JoystickInit` leaves it. -/
def analog_map : List Int := VITA_JoystickInit a b c d

/-! ## The response curve in binary32 -/

/-- The number of halvings that bring `n` below 2, with `fuel` steps at hand. -/
def log2Aux : Nat → Nat → Nat
  | 0, _ => 0
  | fuel + 1, n => if n < 2 then 0 else log2Aux fuel (n / 2) + 1

/-- The position of the leading binary digit of `n`: `2 ^ ilog2 n ≤ n < 2 ^ (ilog2 n + 1)`
for `1 ≤ n`. -/
def ilog2 (n : Nat) : Nat := log2Aux n n

/-- The power `2 ^ k` for an integer exponent. -/
def pow2 (k : Int) : ℚ :=
  if 0 ≤ k then (2 : ℚ) ^ k.toNat else 1 / (2 : ℚ) ^ (-k).toNat

/-- The binary exponent of a nonzero rational: the `e` with `2 ^ e ≤ |q| < 2 ^ (e + 1)`. -/
def binade (q : ℚ) : Int :=
  let k : Int := (ilog2 q.num.natAbs : Int) - (ilog2 q.den : Int)
  if pow2 k ≤ |q| then k else k - 1

/-- Rounding to the nearest integer, a tie going to the even one. -/
def roundNearestEven (q : ℚ) : Int :=
  let f := ⌊q⌋
  let r := q - f
  if r < 1 / 2 then f else if 1 / 2 < r then f + 1 else if f % 2 = 0 then f else f + 1

/-- The binary32 (`float`) value nearest to `q`, ties to even: `q` is rounded to
24 significant binary digits, that is to a multiple of `2 ^ (e - 23)` for its
binary exponent `e`. The exponent range is not limited. -/
def binary32 (q : ℚ) : ℚ :=
  if q = 0 then 0
  else (roundNearestEven (q / pow2 (binade q - 23)) : ℚ) * pow2 (binade q - 23)

/-- The function `lerp` of the source in binary32 arithmetic, for a `float` `t`:
in `first->x + (int)((second->x - first->x) * t)` the `int` difference is
converted to `float`, the product is a `float` product, and `(int)` truncates. -/
def lerp_binary32 (first second : SDL_Point) (t : ℚ) : SDL_Point :=
  { x := first.x + truncToInt (binary32 (binary32 ((second.x - first.x : Int) : ℚ) * t)),
    y := first.y + truncToInt (binary32 (binary32 ((second.y - first.y : Int) : ℚ) * t)) }

/-- The function `calc_bezier_y` of the source in binary32 arithmetic, with the
four static points as arguments. -/
def calc_bezier_y_binary32 (p0 p1 p2 p3 : SDL_Point) (t : ℚ) : Int :=
  let ab := lerp_binary32 p0 p1 t
  let bc := lerp_binary32 p1 p2 t
  let cd := lerp_binary32 p2 p3 t
  let abbc := lerp_binary32 ab bc t
  let bccd := lerp_binary32 bc cd t
  let dest := lerp_binary32 abbc bccd t
  dest.y

/-- The table part of `VITA_JoystickInit` in binary32 arithmetic: the loop with
`t = (float)i / 127.0f`, a `float` division, and the curve through the given
control points. -/
def VITA_JoystickInit_binary32 (p0 p1 p2 p3 : SDL_Point) : List Int :=
  initLoop (fun i => calc_bezier_y_binary32 p0 p1 p2 p3
    (binary32 (binary32 (i : ℚ) / binary32 127)))

/-! ## Change detection -/

/-- The fields of `SceCtrlData` that the driver reads. -/
structure SceCtrlData where
  buttons : Nat
  lx : Nat
  ly : Nat
  rx : Nat
  ry : Nat
  lt : Nat
  rt : Nat
deriving DecidableEq, Repr

/-- A call made to the event sink: `SDL_SendJoystickAxis(timestamp, joystick,
axis, value)` or `SDL_SendJoystickButton(timestamp, joystick, button, down)`. -/
inductive Event where
  | axis (timestamp : Nat) (axis : Nat) (value : Int)
  | button (timestamp : Nat) (button : Nat) (down : Bool)
deriving DecidableEq, Repr

/-- Whether the call is `SDL_SendJoystickAxis`. -/
def Event.isAxis : Event → Bool
  | .axis _ _ _ => true
  | .button _ _ _ => false

/-- Whether the call is `SDL_SendJoystickButton`. -/
def Event.isButton : Event → Bool
  | .axis _ _ _ => false
  | .button _ _ _ => true

/-- Order of two calls of one update: an axis call comes before a button call,
and two calls of one kind come in increasing axis or button number. -/
def Event.precedes : Event → Event → Prop
  | .axis _ i _, .axis _ j _ => i < j
  | .axis _ _ _, .button _ _ _ => True
  | .button _ _ _, .axis _ _ _ => False
  | .button _ i _, .button _ j _ => i < j

/-- The static state of the driver: the four sample buffers `pad0`..`pad3`
and the seven `old_*` arrays of `VITA_JoystickUpdate`. -/
structure State where
  pad0 : SceCtrlData
  pad1 : SceCtrlData
  pad2 : SceCtrlData
  pad3 : SceCtrlData
  old_buttons : Fin 4 → Nat
  old_lx : Fin 4 → Nat
  old_ly : Fin 4 → Nat
  old_rx : Fin 4 → Nat
  old_ry : Fin 4 → Nat
  old_lt : Fin 4 → Nat
  old_rt : Fin 4 → Nat

/-- The all-zero sample of the static initialisers. -/
def zeroPad : SceCtrlData :=
  { buttons := 0, lx := 0, ly := 0, rx := 0, ry := 0, lt := 0, rt := 0 }

/-- The state at program start: every buffer and every `old_*` entry is zero. -/
def initState : State :=
  { pad0 := zeroPad, pad1 := zeroPad, pad2 := zeroPad, pad3 := zeroPad,
    old_buttons := fun _ => 0, old_lx := fun _ => 0, old_ly := fun _ => 0,
    old_rx := fun _ => 0, old_ry := fun _ => 0, old_lt := fun _ => 0,
    old_rt := fun _ => 0 }

/-- The buffer that `pad` points to for a slot. -/
def State.pad (st : State) : Fin 4 → SceCtrlData
  | 0 => st.pad0
  | 1 => st.pad1
  | 2 => st.pad2
  | 3 => st.pad3

/-- A write through `pad` for a slot. -/
def State.setPad (st : State) : Fin 4 → SceCtrlData → State
  | 0, p => { st with pad0 := p }
  | 1, p => { st with pad1 := p }
  | 2, p => { st with pad2 := p }
  | 3, p => { st with pad3 := p }

/-- The stored previous sample of a slot, read out of the seven `old_*` arrays. -/
def State.old (st : State) (index : Fin 4) : SceCtrlData :=
  { buttons := st.old_buttons index, lx := st.old_lx index, ly := st.old_ly index,
    rx := st.old_rx index, ry := st.old_ry index, lt := st.old_lt index,
    rt := st.old_rt index }

/-- The table `ext_port_map` of the source: slot to Vita port number. -/
def ext_port_map : Fin 4 → Int
  | 0 => 1
  | 1 => 2
  | 2 => 3
  | 3 => 4

/-! The button masks come from the platform header `psp2/ctrl.h`, which is
not part of the repository; the values below are those of that header. -/

/-- Platform mask of the select button. -/
def SCE_CTRL_SELECT : Nat := 0x00000001
/-- Platform mask of the L3 button. -/
def SCE_CTRL_L3 : Nat := 0x00000002
/-- Platform mask of the R3 button. -/
def SCE_CTRL_R3 : Nat := 0x00000004
/-- Platform mask of the start button. -/
def SCE_CTRL_START : Nat := 0x00000008
/-- Platform mask of d-pad up. -/
def SCE_CTRL_UP : Nat := 0x00000010
/-- Platform mask of d-pad right. -/
def SCE_CTRL_RIGHT : Nat := 0x00000020
/-- Platform mask of d-pad down. -/
def SCE_CTRL_DOWN : Nat := 0x00000040
/-- Platform mask of d-pad left. -/
def SCE_CTRL_LEFT : Nat := 0x00000080
/-- Platform mask of the L2 button. -/
def SCE_CTRL_L2 : Nat := 0x00000100
/-- Platform mask of the R2 button. -/
def SCE_CTRL_R2 : Nat := 0x00000200
/-- Platform mask of the L1 button. -/
def SCE_CTRL_L1 : Nat := 0x00000400
/-- Platform mask of the R1 button. -/
def SCE_CTRL_R1 : Nat := 0x00000800
/-- Platform mask of the triangle button. -/
def SCE_CTRL_TRIANGLE : Nat := 0x00001000
/-- Platform mask of the circle button. -/
def SCE_CTRL_CIRCLE : Nat := 0x00002000
/-- Platform mask of the cross button. -/
def SCE_CTRL_CROSS : Nat := 0x00004000
/-- Platform mask of the square button. -/
def SCE_CTRL_SQUARE : Nat := 0x00008000

/-- The table `ext_button_map` of the source, in its declaration order. -/
def ext_button_map : List Nat :=
  [SCE_CTRL_TRIANGLE, SCE_CTRL_CIRCLE, SCE_CTRL_CROSS, SCE_CTRL_SQUARE,
   SCE_CTRL_L1, SCE_CTRL_R1, SCE_CTRL_DOWN, SCE_CTRL_LEFT, SCE_CTRL_UP,
   SCE_CTRL_RIGHT, SCE_CTRL_SELECT, SCE_CTRL_START, SCE_CTRL_L2, SCE_CTRL_R2,
   SCE_CTRL_L3, SCE_CTRL_R3]

/-- One axis block of `VITA_JoystickUpdate`:
`if (old[index] != v) { SDL_SendJoystickAxis(timestamp, joystick, axis,
analog_map[v]); old[index] = v; }`, giving the calls made and the array. -/
def axisBlock (tbl : List Int) (timestamp : Nat) (axis : Nat) (old : Fin 4 → Nat)
    (index : Fin 4) (v : Nat) : List Event × (Fin 4 → Nat) :=
  if old index ≠ v then
    ([Event.axis timestamp axis (tbl.getD v 0)], Function.update old index v)
  else
    ([], old)

/-- The loop `for (i = 0; i < SDL_arraysize(ext_button_map); i++)` from loop
index `i` on, over the entries of the button table that remain. -/
def buttonLoop (timestamp changed buttons : Nat) : Nat → List Nat → List Event
  | _, [] => []
  | i, m :: rest =>
    (if changed &&& m ≠ 0 then
      [Event.button timestamp i (decide (buttons &&& m ≠ 0))]
    else []) ++ buttonLoop timestamp changed buttons (i + 1) rest

/-- The diffing part of `VITA_JoystickUpdate` (from `buttons = pad->buttons`
to the end of the function) for slot `index` and the sample `pad` in the
buffer: the calls made, in order, and the state afterwards. -/
def update (bmap : List Nat) (tbl : List Int) (timestamp : Nat) (index : Fin 4)
    (pad : SceCtrlData) (st : State) : List Event × State :=
  let buttons := pad.buttons
  let lx := pad.lx
  let ly := pad.ly
  let rx := pad.rx
  let ry := pad.ry
  let lt := pad.lt
  let rt := pad.rt
  let r0 := axisBlock tbl timestamp 0 st.old_lx index lx
  let r1 := axisBlock tbl timestamp 1 st.old_ly index ly
  let r2 := axisBlock tbl timestamp 2 st.old_rx index rx
  let r3 := axisBlock tbl timestamp 3 st.old_ry index ry
  let r4 := axisBlock tbl timestamp 4 st.old_lt index lt
  let r5 := axisBlock tbl timestamp 5 st.old_rt index rt
  let changed := st.old_buttons index ^^^ buttons
  let old_buttons := Function.update st.old_buttons index buttons
  let sent := if changed ≠ 0 then buttonLoop timestamp changed buttons 0 bmap else []
  (r0.1 ++ r1.1 ++ r2.1 ++ r3.1 ++ r4.1 ++ r5.1 ++ sent,
   { st with old_buttons := old_buttons, old_lx := r0.2, old_ly := r1.2,
             old_rx := r2.2, old_ry := r3.2, old_lt := r4.2, old_rt := r5.2 })

/-- The vendor call `sceCtrlPeekBufferPositive2(port, pad, 1)`: the status it
returns and the buffer afterwards. A port that delivers a sample stores it and
returns the number of samples; a port that fails returns a negative status and
leaves the buffer as it was. -/
def sceCtrlPeekBufferPositive2 (peek : Int → Option SceCtrlData) (port : Int)
    (pad : SceCtrlData) : Int × SceCtrlData :=
  match peek port with
  | some s => (1, s)
  | none => (-1, pad)

/-- The acquisition part of `VITA_JoystickUpdate` for a slot: the ports passed
to `sceCtrlPeekBufferPositive2`, in call order, and the buffer afterwards. -/
def acquire (peek : Int → Option SceCtrlData) (index : Fin 4) (pad : SceCtrlData) :
    List Int × SceCtrlData :=
  if index = 0 then
    let r := sceCtrlPeekBufferPositive2 peek (ext_port_map index) pad
    if r.1 < 0 then
      let r2 := sceCtrlPeekBufferPositive2 peek 0 r.2
      ([ext_port_map index, 0], r2.2)
    else
      ([ext_port_map index], r.2)
  else
    let r := sceCtrlPeekBufferPositive2 peek (ext_port_map index) pad
    ([ext_port_map index], r.2)

/-- What one call of `VITA_JoystickUpdate` does: the calls made to the event
sink, the ports passed to the vendor call, and the state afterwards. -/
structure UpdateResult where
  events : List Event
  queried : List Int
  state : State

/-- The conversion `(int)` of the 32-bit unsigned joystick id. -/
def toInt32 (id : Nat) : Int :=
  if id % 2 ^ 32 < 2 ^ 31 then (id % 2 ^ 32 : Nat) else (id % 2 ^ 32 : Nat) - 2 ^ 32

/-- The body of `VITA_JoystickUpdate` once `pad` is chosen for a slot. -/
def updateSlot (peek : Int → Option SceCtrlData) (bmap : List Nat) (tbl : List Int)
    (timestamp : Nat) (index : Fin 4) (st : State) : UpdateResult :=
  let acq := acquire peek index (st.pad index)
  let st1 := st.setPad index acq.2
  let r := update bmap tbl timestamp index (st1.pad index) st1
  { events := r.1, queried := acq.1, state := r.2 }

/-- The function `VITA_JoystickUpdate` of the source for the joystick with
instance id `id`, at the tick whose `SDL_GetTicksNS()` is `timestamp`. -/
def VITA_JoystickUpdate (peek : Int → Option SceCtrlData) (bmap : List Nat)
    (tbl : List Int) (timestamp : Nat) (id : Nat) (st : State) : UpdateResult :=
  let index : Int := toInt32 id - 1
  if index = 0 then updateSlot peek bmap tbl timestamp 0 st
  else if index = 1 then updateSlot peek bmap tbl timestamp 1 st
  else if index = 2 then updateSlot peek bmap tbl timestamp 2 st
  else if index = 3 then updateSlot peek bmap tbl timestamp 3 st
  else { events := [], queried := [], state := st }

/-- One call of `VITA_JoystickUpdate` as the host makes it: the answers of the
ports at that moment, the time, and the joystick polled. -/
structure Tick where
  peek : Int → Option SceCtrlData
  timestamp : Nat
  id : Nat

/-- The state after a sequence of calls of `VITA_JoystickUpdate`. -/
def runTicks (bmap : List Nat) (tbl : List Int) : List Tick → State → State
  | [], st => st
  | k :: rest, st =>
    runTicks bmap tbl rest (VITA_JoystickUpdate k.peek bmap tbl k.timestamp k.id st).state


/-- The raw byte of axis channel `k` of a sample, in the order of the axis
numbers 0..5 that the six axis blocks pass to `SDL_SendJoystickAxis`:
`lx, ly, rx, ry, lt, rt`. -/
def SceCtrlData.axisByte (p : SceCtrlData) : Fin 6 → Nat
  | 0 => p.lx
  | 1 => p.ly
  | 2 => p.rx
  | 3 => p.ry
  | 4 => p.lt
  | 5 => p.rt

/-- The stored previous sample of every slot is the content of its buffer. -/
def Synced (st : State) : Prop := ∀ i : Fin 4, st.old i = st.pad i

/-- The acquisition fails for a slot: its mapped port fails, and for slot 0
the fallback port 0 fails as well. -/
def AcquisitionFails (peek : Int → Option SceCtrlData) (index : Fin 4) : Prop :=
  peek (ext_port_map index) = none ∧ (index = 0 → peek 0 = none)

/-- The cubic Bezier polynomial of the specification, evaluated exactly:
`(1-t)^3*a.y + 3(1-t)^2*t*b.y + 3(1-t)*t^2*c.y + t^3*d.y`. This follows the
words of the specification, not the source. -/
def spec_bezier_y (p0 p1 p2 p3 : SDL_Point) (t : ℚ) : ℚ :=
  (1 - t) ^ 3 * p0.y + 3 * (1 - t) ^ 2 * t * p1.y + 3 * (1 - t) * t ^ 2 * p2.y
    + t ^ 3 * p3.y

/-- The table entry of the specification: the exact Bezier value with one
truncating conversion at the end. -/
def spec_table_entry (p0 p1 p2 p3 : SDL_Point) (t : ℚ) : Int :=
  truncToInt (spec_bezier_y p0 p1 p2 p3 t)

/-- The pass `initLoopBody` of the table loop, with the indices of the two
stores to `analog_map` appended, in order, to a record of the stores made. -/
def initLoopBodyTraced (curve : Nat → Int) (s : List Int × List Nat) (i : Nat) :
    List Int × List Nat :=
  let m1 := s.1.set (i + 128) (curve i)
  let m2 := m1.set (127 - i) (-1 * m1.getD (i + 128) 0)
  (m2, s.2 ++ [i + 128, 127 - i])

/-- The table loop of `VITA_JoystickInit` together with the record of the
indices it stores to. -/
def initLoopTraced (curve : Nat → Int) : List Int × List Nat :=
  (List.range 128).foldl (initLoopBodyTraced curve) (List.replicate 256 0, [])

/-- A sequence of runs of the diffing part of `VITA_JoystickUpdate` on one
slot, each with its timestamp and sample: all the calls made, in order, and
the state at the end. -/
def runUpdates (bmap : List Nat) (tbl : List Int) (index : Fin 4) :
    List (Nat × SceCtrlData) → State → List Event × State
  | [], st => ([], st)
  | k :: rest, st =>
    let r := update bmap tbl k.1 index k.2 st
    let r2 := runUpdates bmap tbl index rest r.2
    (r.1 ++ r2.1, r2.2)

/-- What a consumer that tracks button `i` does with one call: a button call
for `i` sets the tracked flag to its `down`, every other call leaves it. -/
def replayStep (i : Nat) (acc : Bool) : Event → Bool
  | .button _ j dn => if j = i then dn else acc
  | .axis _ _ _ => acc

/-- The state of button `i` after replaying the calls: the `down` of the most
recent button call for `i`, released when there was none. -/
def replayButton (i : Nat) (evs : List Event) : Bool :=
  evs.foldl (replayStep i) false

/-! ## Lemmas on the table loop -/

theorem getD_set_self (l : List Int) (i : Nat) (v dflt : Int) (h : i < l.length) :
    (l.set i v).getD i dflt = v := by
  rw [List.getD_eq_getElem?_getD, List.getElem?_set]
  simp [h]

theorem getD_set_ne (l : List Int) (i j : Nat) (v dflt : Int) (h : i ≠ j) :
    (l.set i v).getD j dflt = l.getD j dflt := by
  rw [List.getD_eq_getElem?_getD, List.getD_eq_getElem?_getD, List.getElem?_set_ne h]

theorem initLoopBody_length (curve : Nat → Int) (m : List Int) (i : Nat) :
    (initLoopBody curve m i).length = m.length := by
  simp [initLoopBody]

/-- After the first `k` passes of the loop, the entries written so far hold the
curve value and its negation. -/
theorem initLoop_upTo (curve : Nat → Int) (k : Nat) (hk : k ≤ 128) :
    ((List.range k).foldl (initLoopBody curve) (List.replicate 256 0)).length = 256 ∧
    ∀ j, j < k →
      ((List.range k).foldl (initLoopBody curve) (List.replicate 256 0)).getD (j + 128) 0
        = curve j ∧
      ((List.range k).foldl (initLoopBody curve) (List.replicate 256 0)).getD (127 - j) 0
        = - curve j := by
  induction k with
  | zero =>
    refine ⟨by simp only [List.range_zero, List.foldl_nil, List.length_replicate], ?_⟩
    intro j hj
    omega
  | succ k ih =>
    obtain ⟨hlen, hprev⟩ := ih (by omega)
    rw [List.range_succ, List.foldl_append]
    generalize (List.range k).foldl (initLoopBody curve) (List.replicate 256 0) = m at hlen hprev
    refine ⟨by simp [initLoopBody_length, hlen], ?_⟩
    intro j hj
    simp only [List.foldl_cons, List.foldl_nil, initLoopBody]
    have h1 : k + 128 < m.length := by omega
    have h2 : 127 - k < (m.set (k + 128) (curve k)).length := by
      rw [List.length_set]; omega
    by_cases hjk : j = k
    · subst hjk
      constructor
      · rw [getD_set_ne _ _ _ _ _ (by omega), getD_set_self _ _ _ _ h1]
      · rw [getD_set_self _ _ _ _ h2, getD_set_self _ _ _ _ h1]; ring
    · have hlt : j < k := by omega
      obtain ⟨ha, hb⟩ := hprev j hlt
      constructor
      · rw [getD_set_ne _ _ _ _ _ (by omega), getD_set_ne _ _ _ _ _ (by omega)]; exact ha
      · rw [getD_set_ne _ _ _ _ _ (by omega), getD_set_ne _ _ _ _ _ (by omega)]; exact hb

theorem initLoop_length (curve : Nat → Int) : (initLoop curve).length = 256 :=
  (initLoop_upTo curve 128 (le_refl _)).1

theorem initLoop_upper (curve : Nat → Int) (j : Nat) (hj : j < 128) :
    (initLoop curve).getD (j + 128) 0 = curve j :=
  ((initLoop_upTo curve 128 (le_refl _)).2 j hj).1

theorem initLoop_lower (curve : Nat → Int) (j : Nat) (hj : j < 128) :
    (initLoop curve).getD (127 - j) 0 = - curve j :=
  ((initLoop_upTo curve 128 (le_refl _)).2 j hj).2

/-- The loop gives an antisymmetric table whatever the curve evaluator returns. -/
theorem initLoop_antisymm (curve : Nat → Int) (i : Nat) (hi : i < 256) :
    (initLoop curve).getD (255 - i) 0 = - (initLoop curve).getD i 0 := by
  by_cases h : i < 128
  · have e1 : 255 - i = (127 - i) + 128 := by omega
    have e2 : i = 127 - (127 - i) := by omega
    rw [e1, initLoop_upper curve (127 - i) (by omega)]
    conv_rhs => rw [e2, initLoop_lower curve (127 - i) (by omega)]
    ring
  · have e1 : 255 - i = 127 - (i - 128) := by omega
    have e2 : i = (i - 128) + 128 := by omega
    rw [e1, initLoop_lower curve (i - 128) (by omega)]
    conv_rhs => rw [e2, initLoop_upper curve (i - 128) (by omega)]

/-! ## The table -/

/-- C1: for any four control points, the table that the loop of
`VITA_JoystickInit` builds is antisymmetric: for every raw byte `i` in
`0..255`, `analog_map[255 - i] == -analog_map[i]`. -/
theorem C1_table_antisymmetric (p0 p1 p2 p3 : SDL_Point) (i : Fin 256) :
    (VITA_JoystickInit p0 p1 p2 p3).getD (255 - i.val) 0
      = - (VITA_JoystickInit p0 p1 p2 p3).getD i.val 0 :=
  initLoop_antisymm _ i.val i.isLt


/-- The 256 entries of the table for the control points of the source. -/
theorem analog_map_eq :
    analog_map =
      [-32767, -32759, -32742, -32712, -32671, -32618, -32553, -32478, -32392, -32296,
      -32188, -32071, -31944, -31806, -31659, -31502, -31336, -31161, -30978, -30785,
      -30584, -30374, -30157, -29931, -29697, -29457, -29208, -28952, -28690, -28421,
      -28144, -27862, -27573, -27278, -26978, -26672, -26359, -26043, -25721, -25393,
      -25062, -24725, -24385, -24040, -23691, -23339, -22983, -22624, -22262, -21896,
      -21528, -21157, -20784, -20409, -20031, -19652, -19271, -18889, -18505, -18121,
      -17736, -17350, -16963, -16576, -16189, -15802, -15415, -15029, -14643, -14259,
      -13876, -13493, -13113, -12733, -12356, -11981, -11607, -11236, -10868, -10503,
      -10140, -9781, -9425, -9073, -8725, -8379, -8039, -7703, -7371, -7044, -6722,
      -6405, -6093, -5787, -5486, -5192, -4903, -4620, -4344, -4075, -3812, -3557,
      -3308, -3068, -2834, -2608, -2390, -2181, -1980, -1787, -1604, -1429, -1263,
      -1106, -959, -821, -694, -577, -469, -373, -287, -212, -147, -94, -53, -23, -6, 0,
      0, 6, 23, 53, 94, 147, 212, 287, 373, 469, 577, 694, 821, 959, 1106, 1263, 1429,
      1604, 1787, 1980, 2181, 2390, 2608, 2834, 3068, 3308, 3557, 3812, 4075, 4344,
      4620, 4903, 5192, 5486, 5787, 6093, 6405, 6722, 7044, 7371, 7703, 8039, 8379,
      8725, 9073, 9425, 9781, 10140, 10503, 10868, 11236, 11607, 11981, 12356, 12733,
      13113, 13493, 13876, 14259, 14643, 15029, 15415, 15802, 16189, 16576, 16963,
      17350, 17736, 18121, 18505, 18889, 19271, 19652, 20031, 20409, 20784, 21157,
      21528, 21896, 22262, 22624, 22983, 23339, 23691, 24040, 24385, 24725, 25062,
      25393, 25721, 26043, 26359, 26672, 26978, 27278, 27573, 27862, 28144, 28421,
      28690, 28952, 29208, 29457, 29697, 29931, 30157, 30374, 30584, 30785, 30978,
      31161, 31336, 31502, 31659, 31806, 31944, 32071, 32188, 32296, 32392, 32478,
      32553, 32618, 32671, 32712, 32742, 32759, 32767] := by
  decide!


/-! ## The table of the source's control points -/

set_option maxRecDepth 100000 in
/-- C9: with the control points of the source (`t` the exact rational
`i / 127`), `analog_map[0] == -analog_map[255]`, both have magnitude 32767,
no entry has a larger magnitude, and every entry lies in the range of a signed
16-bit integer. -/
theorem C9_extreme_entries :
    analog_map.getD 0 0 = - analog_map.getD 255 0 ∧
    |analog_map.getD 0 0| = 32767 ∧ |analog_map.getD 255 0| = 32767 ∧
    ∀ i : Fin 256,
      |analog_map.getD i.val 0| ≤ |analog_map.getD 0 0| ∧
      -32768 ≤ analog_map.getD i.val 0 ∧ analog_map.getD i.val 0 ≤ 32767 := by
  rw [analog_map_eq]
  decide

/-- C10 as stated fails: the entry of byte 128 is 0, the curve's start anchor,
and it is smaller than the entry of byte 255. -/
theorem C10_entry_128_counterexample :
    analog_map.getD 128 0 = 0 ∧ analog_map.getD 128 0 < analog_map.getD 255 0 := by
  rw [analog_map_eq]
  decide

set_option maxRecDepth 100000 in
/-- C10, as the code has it: with the control points of the source (`t` the
exact rational `i / 127`), the maximum of the table is the entry of byte 255,
namely 32767; the entry of byte 128 is 0. -/
theorem C10_maximum_entry :
    analog_map.getD 255 0 = 32767 ∧ analog_map.getD 128 0 = 0 ∧
    ∀ i : Fin 256, analog_map.getD i.val 0 ≤ analog_map.getD 255 0 := by
  rw [analog_map_eq]
  decide

/-! ## Lemmas on the change detection -/

theorem axisBlock_same (tbl : List Int) (ts ax : Nat) (old : Fin 4 → Nat) (index : Fin 4) :
    axisBlock tbl ts ax old index (old index) = ([], old) := by
  simp [axisBlock]

theorem axisBlock_snd_self (tbl : List Int) (ts ax : Nat) (old : Fin 4 → Nat)
    (index : Fin 4) (v : Nat) : (axisBlock tbl ts ax old index v).2 index = v := by
  unfold axisBlock
  split_ifs with h
  · simp
  · exact not_not.mp h

theorem axisBlock_snd_ne (tbl : List Int) (ts ax : Nat) (old : Fin 4 → Nat)
    (index j : Fin 4) (v : Nat) (h : j ≠ index) :
    (axisBlock tbl ts ax old index v).2 j = old j := by
  unfold axisBlock
  split_ifs
  · simp [Function.update_noteq h]
  · rfl

theorem axisBlock_changed (tbl : List Int) (ts ax : Nat) (old : Fin 4 → Nat)
    (index : Fin 4) (v : Nat) (h : old index ≠ v) :
    (axisBlock tbl ts ax old index v).1 = [Event.axis ts ax (tbl.getD v 0)] := by
  simp [axisBlock, h]

theorem axisBlock_events (tbl : List Int) (ts ax : Nat) (old : Fin 4 → Nat)
    (index : Fin 4) (v : Nat) :
    (axisBlock tbl ts ax old index v).1 = [] ∨
    (axisBlock tbl ts ax old index v).1 = [Event.axis ts ax (tbl.getD v 0)] := by
  unfold axisBlock
  split_ifs
  · exact Or.inr rfl
  · exact Or.inl rfl

/-- After the diff the stored previous sample of the slot is the new sample. -/
theorem update_old_self (bmap : List Nat) (tbl : List Int) (ts : Nat) (index : Fin 4)
    (raw : SceCtrlData) (st : State) :
    (update bmap tbl ts index raw st).2.old index = raw := by
  simp [update, State.old, axisBlock_snd_self]

/-- The diff leaves the stored previous samples of the other slots alone. -/
theorem update_old_ne (bmap : List Nat) (tbl : List Int) (ts : Nat) (index j : Fin 4)
    (raw : SceCtrlData) (st : State) (h : j ≠ index) :
    (update bmap tbl ts index raw st).2.old j = st.old j := by
  simp [update, State.old, axisBlock_snd_ne _ _ _ _ _ _ _ h, Function.update_noteq h]

/-- The diff does not write to the sample buffers. -/
theorem update_pad (bmap : List Nat) (tbl : List Int) (ts : Nat) (index j : Fin 4)
    (raw : SceCtrlData) (st : State) :
    (update bmap tbl ts index raw st).2.pad j = st.pad j := by
  fin_cases j <;> simp [update, State.pad]

/-- A sample equal to the stored previous sample gives no call and no write. -/
theorem update_of_old_eq (bmap : List Nat) (tbl : List Int) (ts : Nat) (index : Fin 4)
    (raw : SceCtrlData) (st : State) (h : st.old index = raw) :
    update bmap tbl ts index raw st = ([], st) := by
  subst h
  simp [update, State.old, axisBlock_same]

/-! ## The change detection -/

/-- C2: for every slot, every slot state and every raw sample, a second
`update` with the same sample right after the first makes no call to the event
sink and leaves the state as the first call left it. -/
theorem C2_same_sample_twice (bmap : List Nat) (tbl : List Int) (ts1 ts2 : Nat)
    (index : Fin 4) (raw : SceCtrlData) (st : State) :
    (update bmap tbl ts2 index raw (update bmap tbl ts1 index raw st).2).1 = [] ∧
    (update bmap tbl ts2 index raw (update bmap tbl ts1 index raw st).2).2
      = (update bmap tbl ts1 index raw st).2 := by
  rw [update_of_old_eq _ _ _ _ _ _ (update_old_self bmap tbl ts1 index raw st)]
  exact ⟨rfl, rfl⟩

/-- C6: after `update` for a slot, the stored previous sample of that slot
equals the raw sample in all six axis bytes and in the whole button bitmask,
whatever the state before. -/
theorem C6_stored_sample_is_raw (bmap : List Nat) (tbl : List Int) (ts : Nat)
    (index : Fin 4) (raw : SceCtrlData) (st : State) :
    (update bmap tbl ts index raw st).2.old_lx index = raw.lx ∧
    (update bmap tbl ts index raw st).2.old_ly index = raw.ly ∧
    (update bmap tbl ts index raw st).2.old_rx index = raw.rx ∧
    (update bmap tbl ts index raw st).2.old_ry index = raw.ry ∧
    (update bmap tbl ts index raw st).2.old_lt index = raw.lt ∧
    (update bmap tbl ts index raw st).2.old_rt index = raw.rt ∧
    (update bmap tbl ts index raw st).2.old_buttons index = raw.buttons := by
  simp [update, axisBlock_snd_self]


/-- C3: when the sample differs from the stored previous sample of the slot in
exactly one of the six axis bytes, by one up or down, and in nothing else,
`update` makes exactly one call: `SDL_SendJoystickAxis` with that channel's
axis number and the table entry of the new byte. -/
theorem C3_one_axis_step (bmap : List Nat) (tbl : List Int) (ts : Nat) (index : Fin 4)
    (raw : SceCtrlData) (st : State) (k : Fin 6)
    (hstep : raw.axisByte k = (st.old index).axisByte k + 1 ∨
      raw.axisByte k + 1 = (st.old index).axisByte k)
    (hrest : ∀ j : Fin 6, j ≠ k → raw.axisByte j = (st.old index).axisByte j)
    (hbuttons : raw.buttons = (st.old index).buttons) :
    (update bmap tbl ts index raw st).1
      = [Event.axis ts k.val (tbl.getD (raw.axisByte k) 0)] := by
  have h0 := hrest 0
  have h1 := hrest 1
  have h2 := hrest 2
  have h3 := hrest 3
  have h4 := hrest 4
  have h5 := hrest 5
  have hne : (st.old index).axisByte k ≠ raw.axisByte k := by omega
  simp only [State.old] at hbuttons
  fin_cases k <;>
    simp [SceCtrlData.axisByte, State.old] at h0 h1 h2 h3 h4 h5 hne ⊢ <;>
    simp [update, axisBlock, hne, h0, h1, h2, h3, h4, h5, hbuttons,
      SceCtrlData.axisByte]

/-- The step taken in `C3_one_axis_step`, on the initial state: `lx` goes from
0 to 1 on slot 0 and the one call is for axis 0. -/
theorem C3_one_axis_step_witness :
    (update ext_button_map analog_map 7 0 { zeroPad with lx := 1 } initState).1
      = [Event.axis 7 0 (analog_map.getD 1 0)] :=
  C3_one_axis_step ext_button_map analog_map 7 0 { zeroPad with lx := 1 } initState 0
    (Or.inl (by decide)) (by decide) (by decide)

/-! ## Lemmas on the button loop -/

/-- Every call made by the button loop is a button call whose number is a loop
index. -/
theorem buttonLoop_mem (ts changed buttons : Nat) (l : List Nat) :
    ∀ (i : Nat) (e : Event), e ∈ buttonLoop ts changed buttons i l →
      ∃ j dn, e = Event.button ts j dn ∧ i ≤ j ∧ j < i + l.length := by
  induction l with
  | nil => intro i e he; simp [buttonLoop] at he
  | cons m rest ih =>
    intro i e he
    simp only [buttonLoop, List.mem_append] at he
    rcases he with he | he
    · split_ifs at he with hc
      · simp only [List.mem_singleton] at he
        exact ⟨i, _, he, le_refl _, by simp⟩
      · simp at he
    · obtain ⟨j, dn, hj, h1, h2⟩ := ih (i + 1) e he
      exact ⟨j, dn, hj, by omega, by simp only [List.length_cons]; omega⟩

/-- The button loop makes its calls in increasing button number. -/
theorem buttonLoop_pairwise (ts changed buttons : Nat) (l : List Nat) :
    ∀ i : Nat, (buttonLoop ts changed buttons i l).Pairwise Event.precedes := by
  induction l with
  | nil => intro i; simp [buttonLoop]
  | cons m rest ih =>
    intro i
    simp only [buttonLoop]
    rw [List.pairwise_append]
    refine ⟨?_, ih (i + 1), ?_⟩
    · split_ifs <;> simp
    · intro x hx y hy
      obtain ⟨j, dn, hj, h1, _⟩ := buttonLoop_mem ts changed buttons rest (i + 1) y hy
      split_ifs at hx with hc
      · simp only [List.mem_singleton] at hx
        subst hx hj
        simp only [Event.precedes]
        omega
      · simp at hx

/-- The calls of one `update` are the axis calls of the six blocks followed by
the calls of the button loop. -/
theorem update_events (bmap : List Nat) (tbl : List Int) (ts : Nat) (index : Fin 4)
    (raw : SceCtrlData) (st : State) :
    (update bmap tbl ts index raw st).1 =
      ((axisBlock tbl ts 0 st.old_lx index raw.lx).1 ++
       (axisBlock tbl ts 1 st.old_ly index raw.ly).1 ++
       (axisBlock tbl ts 2 st.old_rx index raw.rx).1 ++
       (axisBlock tbl ts 3 st.old_ry index raw.ry).1 ++
       (axisBlock tbl ts 4 st.old_lt index raw.lt).1 ++
       (axisBlock tbl ts 5 st.old_rt index raw.rt).1) ++
      (if st.old_buttons index ^^^ raw.buttons ≠ 0 then
        buttonLoop ts (st.old_buttons index ^^^ raw.buttons) raw.buttons 0 bmap
       else []) := by
  simp [update]

/-- An axis block only makes axis calls. -/
theorem axisBlock_isAxis (tbl : List Int) (ts ax : Nat) (old : Fin 4 → Nat)
    (index : Fin 4) (v : Nat) (e : Event) (he : e ∈ (axisBlock tbl ts ax old index v).1) :
    e.isAxis = true := by
  rcases axisBlock_events tbl ts ax old index v with h | h
  · rw [h] at he; simp at he
  · rw [h, List.mem_singleton] at he; subst he; rfl

/-- The six axis blocks only make axis calls. -/
theorem axisBlocks_isAxis (tbl : List Int) (ts : Nat) (index : Fin 4)
    (raw : SceCtrlData) (st : State) (e : Event)
    (he : e ∈ (axisBlock tbl ts 0 st.old_lx index raw.lx).1 ++
       (axisBlock tbl ts 1 st.old_ly index raw.ly).1 ++
       (axisBlock tbl ts 2 st.old_rx index raw.rx).1 ++
       (axisBlock tbl ts 3 st.old_ry index raw.ry).1 ++
       (axisBlock tbl ts 4 st.old_lt index raw.lt).1 ++
       (axisBlock tbl ts 5 st.old_rt index raw.rt).1) :
    e.isAxis = true := by
  simp only [List.mem_append] at he
  rcases he with ((((he | he) | he) | he) | he) | he <;>
    exact axisBlock_isAxis _ _ _ _ _ _ e he

/-- The six axis blocks make their calls in increasing axis number. -/
theorem axisBlocks_pairwise (tbl : List Int) (ts : Nat) (index : Fin 4)
    (raw : SceCtrlData) (st : State) :
    ((axisBlock tbl ts 0 st.old_lx index raw.lx).1 ++
       (axisBlock tbl ts 1 st.old_ly index raw.ly).1 ++
       (axisBlock tbl ts 2 st.old_rx index raw.rx).1 ++
       (axisBlock tbl ts 3 st.old_ry index raw.ry).1 ++
       (axisBlock tbl ts 4 st.old_lt index raw.lt).1 ++
       (axisBlock tbl ts 5 st.old_rt index raw.rt).1).Pairwise Event.precedes := by
  rcases axisBlock_events tbl ts 0 st.old_lx index raw.lx with h0 | h0 <;>
  rcases axisBlock_events tbl ts 1 st.old_ly index raw.ly with h1 | h1 <;>
  rcases axisBlock_events tbl ts 2 st.old_rx index raw.rx with h2 | h2 <;>
  rcases axisBlock_events tbl ts 3 st.old_ry index raw.ry with h3 | h3 <;>
  rcases axisBlock_events tbl ts 4 st.old_lt index raw.lt with h4 | h4 <;>
  rcases axisBlock_events tbl ts 5 st.old_rt index raw.rt with h5 | h5 <;>
  rw [h0, h1, h2, h3, h4, h5] <;>
  simp [Event.precedes]

/-- C5: in the calls of every single `update`, every axis call precedes every
button call, the axis calls come in strictly increasing axis number and the
button calls in strictly increasing button number, the position in
`ext_button_map`. -/
theorem C5_event_order (bmap : List Nat) (tbl : List Int) (ts : Nat) (index : Fin 4)
    (raw : SceCtrlData) (st : State) :
    (update bmap tbl ts index raw st).1.Pairwise Event.precedes := by
  rw [update_events, List.pairwise_append]
  refine ⟨axisBlocks_pairwise tbl ts index raw st, ?_, ?_⟩
  · split_ifs
    · exact buttonLoop_pairwise _ _ _ _ 0
    · exact List.Pairwise.nil
  · intro x hx y hy
    have hxa := axisBlocks_isAxis tbl ts index raw st x hx
    split_ifs at hy
    · obtain ⟨j, dn, hj, _, _⟩ := buttonLoop_mem _ _ _ _ 0 y hy
      subst hj
      cases x with
      | axis t i v => trivial
      | button t i dn2 => simp [Event.isAxis] at hxa
    · simp at hy

/-- Masking with a single bit tests that bit. -/
theorem decide_and_two_pow (n k : Nat) : decide (n &&& 2 ^ k ≠ 0) = n.testBit k := by
  rw [Nat.and_two_pow]
  cases h : n.testBit k <;> simp

/-- A single changed bit above a mask does not meet the mask. -/
theorem two_pow_and_of_lt (k m : Nat) (h : m < 2 ^ k) : 2 ^ k &&& m = 0 := by
  rw [Nat.two_pow_and, Nat.testBit_lt_two_pow h]
  simp

/-- The button loop makes no call when no mask of the table meets the changed bits. -/
theorem buttonLoop_none (ts changed buttons : Nat) (l : List Nat)
    (h : ∀ m ∈ l, changed &&& m = 0) :
    ∀ i : Nat, buttonLoop ts changed buttons i l = [] := by
  induction l with
  | nil => intro i; rfl
  | cons m rest ih =>
    intro i
    have hm : changed &&& m = 0 := h m (List.mem_cons_self _ _)
    simp only [buttonLoop, hm, ne_eq, not_true_eq_false, if_false, List.nil_append]
    exact ih (fun x hx => h x (List.mem_cons_of_mem _ hx)) (i + 1)

/-- Two single bits meet only when they are the same bit. -/
theorem two_pow_and_two_pow (k j : Nat) :
    (2 ^ k &&& 2 ^ j ≠ 0) ↔ j = k := by
  rw [Nat.two_pow_and, Nat.testBit_two_pow]
  by_cases h : j = k
  · simp [h]
  · simp [h]

/-- The masks of `ext_button_map` are single bits: the bit numbers in table order. -/
theorem ext_button_map_eq :
    ext_button_map = [2 ^ 12, 2 ^ 13, 2 ^ 14, 2 ^ 15, 2 ^ 10, 2 ^ 11, 2 ^ 6, 2 ^ 7,
      2 ^ 4, 2 ^ 5, 2 ^ 0, 2 ^ 3, 2 ^ 8, 2 ^ 9, 2 ^ 1, 2 ^ 2] := by
  decide

/-- Every mask of `ext_button_map` lies in the low sixteen bits. -/
theorem ext_button_map_lt : ∀ m ∈ ext_button_map, m < 2 ^ 16 := by
  decide

/-- C4, as the code has it: when the button bitmask of the sample differs from
the stored previous bitmask of the slot in exactly one bit `k`, then for a bit
of the button table (`k < 16`) `update` makes exactly one button call, for the
table entry whose mask is that bit, with `down` the new value of the bit, and
this call comes after every axis call; for a bit outside the table (`16 ≤ k`)
it makes no button call at all. -/
theorem C4_one_button_bit (tbl : List Int) (ts : Nat) (index : Fin 4)
    (raw : SceCtrlData) (st : State) (k : Nat)
    (hbit : st.old_buttons index ^^^ raw.buttons = 2 ^ k) :
    ∃ pre : List Event, (∀ e ∈ pre, e.isAxis = true) ∧
      (k < 16 →
        ext_button_map[ext_button_map.indexOf (2 ^ k)]? = some (2 ^ k) ∧
        (update ext_button_map tbl ts index raw st).1 =
          pre ++ [Event.button ts (ext_button_map.indexOf (2 ^ k)) (raw.buttons.testBit k)]) ∧
      (16 ≤ k → (update ext_button_map tbl ts index raw st).1 = pre) := by
  refine ⟨_, axisBlocks_isAxis tbl ts index raw st, ?_, ?_⟩
  · intro hk
    rw [update_events, hbit]
    have hpos : (2 : Nat) ^ k ≠ 0 := by positivity
    rw [if_pos hpos, ext_button_map_eq]
    simp only [buttonLoop, two_pow_and_two_pow, decide_and_two_pow]
    interval_cases k <;> simp [List.indexOf_cons]
  · intro hk
    rw [update_events, hbit]
    have hnone : ∀ m ∈ ext_button_map, 2 ^ k &&& m = 0 := fun m hm =>
      two_pow_and_of_lt k m
        (lt_of_lt_of_le (ext_button_map_lt m hm) (Nat.pow_le_pow_right (by norm_num) hk))
    rw [buttonLoop_none ts (2 ^ k) raw.buttons ext_button_map hnone 0]
    simp

/-- The bit of the cross button (bit 14) pressed on slot 0 of the initial state:
one button call, for button 2, pressed. -/
theorem C4_one_button_bit_witness :
    ∃ pre : List Event, (∀ e ∈ pre, e.isAxis = true) ∧
      ((14 : Nat) < 16 →
        ext_button_map[ext_button_map.indexOf (2 ^ 14)]? = some (2 ^ 14) ∧
        (update ext_button_map analog_map 7 0 { zeroPad with buttons := SCE_CTRL_CROSS }
            initState).1 =
          pre ++ [Event.button 7 (ext_button_map.indexOf (2 ^ 14))
            (({ zeroPad with buttons := SCE_CTRL_CROSS } : SceCtrlData).buttons.testBit 14)]) ∧
      (16 ≤ 14 →
        (update ext_button_map analog_map 7 0 { zeroPad with buttons := SCE_CTRL_CROSS }
            initState).1 = pre) :=
  C4_one_button_bit analog_map 7 0 { zeroPad with buttons := SCE_CTRL_CROSS } initState 14
    (by decide)

/-- C4 as stated fails for a bit that belongs to no table entry: bit 16 (the
PS button of the platform header) set in the sample on slot 0 of the initial
state differs from the stored bitmask in exactly that bit, and `update` makes
no call at all. -/
theorem C4_unmapped_bit_counterexample :
    initState.old_buttons 0 ^^^ ({ zeroPad with buttons := 0x10000 } : SceCtrlData).buttons
      = 2 ^ 16 ∧
    (update ext_button_map analog_map 7 0 { zeroPad with buttons := 0x10000 } initState).1
      = [] := by
  refine ⟨by decide, ?_⟩
  decide

/-! ## Lemmas on the acquisition -/

theorem pad_setPad (st : State) (i : Fin 4) (p : SceCtrlData) :
    (st.setPad i p).pad i = p := by
  fin_cases i <;> rfl

theorem pad_setPad_ne (st : State) (i j : Fin 4) (p : SceCtrlData) (h : j ≠ i) :
    (st.setPad i p).pad j = st.pad j := by
  fin_cases i <;> fin_cases j <;> first | rfl | exact absurd rfl h

theorem old_setPad (st : State) (i j : Fin 4) (p : SceCtrlData) :
    (st.setPad i p).old j = st.old j := by
  fin_cases i <;> rfl

theorem setPad_pad (st : State) (i : Fin 4) : st.setPad i (st.pad i) = st := by
  fin_cases i <;> rfl

theorem toInt32_succ (i : Fin 4) : toInt32 (i.val + 1) - 1 = (i.val : Int) := by
  fin_cases i <;> decide

/-- For the joystick id of a slot, `VITA_JoystickUpdate` runs the body on that slot. -/
theorem VITA_JoystickUpdate_slot (peek : Int → Option SceCtrlData) (bmap : List Nat)
    (tbl : List Int) (ts : Nat) (i : Fin 4) (st : State) :
    VITA_JoystickUpdate peek bmap tbl ts (i.val + 1) st = updateSlot peek bmap tbl ts i st := by
  unfold VITA_JoystickUpdate
  simp only [toInt32_succ]
  fin_cases i <;> simp

/-- A failed acquisition leaves the buffer of the slot as it was. -/
theorem acquire_fails (peek : Int → Option SceCtrlData) (i : Fin 4) (pad : SceCtrlData)
    (h : AcquisitionFails peek i) : (acquire peek i pad).2 = pad := by
  obtain ⟨h1, h2⟩ := h
  by_cases h0 : i = 0
  · have h3 := h2 h0
    subst h0
    simp [acquire, sceCtrlPeekBufferPositive2, h1, h3]
  · simp [acquire, sceCtrlPeekBufferPositive2, h0, h1]

/-- The body of `VITA_JoystickUpdate` keeps every stored previous sample equal
to the buffer of its slot. -/
theorem updateSlot_synced (peek : Int → Option SceCtrlData) (bmap : List Nat)
    (tbl : List Int) (ts : Nat) (i : Fin 4) (st : State) (h : Synced st) :
    Synced (updateSlot peek bmap tbl ts i st).state := by
  intro j
  simp only [updateSlot]
  rw [update_pad]
  by_cases hj : j = i
  · subst hj
    rw [update_old_self]
  · rw [update_old_ne _ _ _ _ _ _ _ hj, old_setPad, pad_setPad_ne _ _ _ _ hj]
    exact h j

theorem VITA_JoystickUpdate_synced (peek : Int → Option SceCtrlData) (bmap : List Nat)
    (tbl : List Int) (ts id : Nat) (st : State) (h : Synced st) :
    Synced (VITA_JoystickUpdate peek bmap tbl ts id st).state := by
  unfold VITA_JoystickUpdate
  simp only
  split_ifs
  · exact updateSlot_synced _ _ _ _ _ _ h
  · exact updateSlot_synced _ _ _ _ _ _ h
  · exact updateSlot_synced _ _ _ _ _ _ h
  · exact updateSlot_synced _ _ _ _ _ _ h
  · exact h

theorem initState_synced : Synced initState := by
  intro j
  fin_cases j <;> rfl

theorem runTicks_synced (bmap : List Nat) (tbl : List Int) (ticks : List Tick) :
    ∀ st : State, Synced st → Synced (runTicks bmap tbl ticks st) := by
  induction ticks with
  | nil => intro st h; exact h
  | cons k rest ih =>
    intro st h
    exact ih _ (VITA_JoystickUpdate_synced _ _ _ _ _ _ h)

/-! ## The acquisition -/

/-- C8: in every state reached from the initial all-zero state by calls of
`VITA_JoystickUpdate`, a call whose acquisition fails for the slot (the mapped
port fails, and for slot 0 port 0 fails too; a failed acquisition leaves the
buffer as it was) makes no call to the event sink and leaves the state, with
the stored previous sample of the slot, as it was: the next sample is diffed
against the state from before the gap. -/
theorem C8_failed_acquisition_is_silent (bmap : List Nat) (tbl : List Int)
    (ticks : List Tick) (peek : Int → Option SceCtrlData) (ts : Nat) (i : Fin 4)
    (hfail : AcquisitionFails peek i) :
    (VITA_JoystickUpdate peek bmap tbl ts (i.val + 1)
        (runTicks bmap tbl ticks initState)).events = [] ∧
    (VITA_JoystickUpdate peek bmap tbl ts (i.val + 1)
        (runTicks bmap tbl ticks initState)).state = runTicks bmap tbl ticks initState := by
  have hs : Synced (runTicks bmap tbl ticks initState) :=
    runTicks_synced bmap tbl ticks initState initState_synced
  generalize runTicks bmap tbl ticks initState = st at hs
  rw [VITA_JoystickUpdate_slot]
  simp only [updateSlot, acquire_fails peek i _ hfail, setPad_pad]
  rw [update_of_old_eq _ _ _ _ _ _ (hs i)]
  exact ⟨rfl, rfl⟩

/-- The failed call of `C8_failed_acquisition_is_silent` on slot 0, after one
call that read a sample from port 1. -/
theorem C8_failed_acquisition_is_silent_witness :
    (VITA_JoystickUpdate (fun _ => none) ext_button_map analog_map 2 1
        (runTicks ext_button_map analog_map
          [{ peek := fun p => if p = 1 then some { zeroPad with lx := 200, buttons := 0x4000 }
                      else none,
             timestamp := 1, id := 1 }] initState)).events = [] ∧
    (VITA_JoystickUpdate (fun _ => none) ext_button_map analog_map 2 1
        (runTicks ext_button_map analog_map
          [{ peek := fun p => if p = 1 then some { zeroPad with lx := 200, buttons := 0x4000 }
                      else none,
             timestamp := 1, id := 1 }] initState)).state =
      runTicks ext_button_map analog_map
          [{ peek := fun p => if p = 1 then some { zeroPad with lx := 200, buttons := 0x4000 }
                      else none,
             timestamp := 1, id := 1 }] initState :=
  C8_failed_acquisition_is_silent ext_button_map analog_map
    [{ peek := fun p => if p = 1 then some { zeroPad with lx := 200, buttons := 0x4000 }
                else none,
       timestamp := 1, id := 1 }] (fun _ => none) 2 0 ⟨rfl, fun _ => rfl⟩

/-- C7: with the acquisition primitive a function from the port to a sample or
a failure. For slot 0 (joystick id 1): when the mapped port `ext_port_map[0]`
fails and port 0 delivers a sample, the two ports are asked in that order, the
sample that is diffed is the one of port 0, and the call ends like any other
(the function returns nothing, there is no error to report); when the mapped
port delivers a sample, it is the only port asked and its sample is diffed.
For slots 1..3 the mapped port is the only port asked, and it is not port 0;
the outcome does not depend on what port 0 would answer. -/
theorem C7_slot0_fallback (peek : Int → Option SceCtrlData) (bmap : List Nat)
    (tbl : List Int) (ts : Nat) (st : State) :
    (∀ s : SceCtrlData, peek (ext_port_map 0) = none → peek 0 = some s →
      VITA_JoystickUpdate peek bmap tbl ts 1 st =
        { events := (update bmap tbl ts 0 s (st.setPad 0 s)).1,
          queried := [ext_port_map 0, 0],
          state := (update bmap tbl ts 0 s (st.setPad 0 s)).2 }) ∧
    (∀ s : SceCtrlData, peek (ext_port_map 0) = some s →
      VITA_JoystickUpdate peek bmap tbl ts 1 st =
        { events := (update bmap tbl ts 0 s (st.setPad 0 s)).1,
          queried := [ext_port_map 0],
          state := (update bmap tbl ts 0 s (st.setPad 0 s)).2 } ∧
      (0 : Int) ∉ [ext_port_map 0]) ∧
    (∀ i : Fin 4, i ≠ 0 →
      (VITA_JoystickUpdate peek bmap tbl ts (i.val + 1) st).queried = [ext_port_map i] ∧
      (0 : Int) ∉ (VITA_JoystickUpdate peek bmap tbl ts (i.val + 1) st).queried ∧
      ∀ peek2 : Int → Option SceCtrlData, (∀ p : Int, p ≠ 0 → peek2 p = peek p) →
        VITA_JoystickUpdate peek2 bmap tbl ts (i.val + 1) st =
          VITA_JoystickUpdate peek bmap tbl ts (i.val + 1) st) := by
  refine ⟨?_, ?_, ?_⟩
  · intro s h1 h0
    rw [show (1 : Nat) = (0 : Fin 4).val + 1 from rfl, VITA_JoystickUpdate_slot]
    have h1b : peek 1 = none := h1
    simp [updateSlot, acquire, sceCtrlPeekBufferPositive2, h1b, h0, pad_setPad, ext_port_map]
  · intro s h1
    rw [show (1 : Nat) = (0 : Fin 4).val + 1 from rfl, VITA_JoystickUpdate_slot]
    have h1b : peek 1 = some s := h1
    simp [updateSlot, acquire, sceCtrlPeekBufferPositive2, h1b, pad_setPad, ext_port_map]
  · intro i hi
    have hport : ext_port_map i ≠ 0 := by
      fin_cases i <;> simp [ext_port_map] at hi ⊢
    refine ⟨?_, ?_, ?_⟩
    · rw [VITA_JoystickUpdate_slot]
      simp [updateSlot, acquire, hi]
    · rw [VITA_JoystickUpdate_slot]
      simp [updateSlot, acquire, hi, hport.symm]
    · intro peek2 h2
      rw [VITA_JoystickUpdate_slot, VITA_JoystickUpdate_slot]
      simp [updateSlot, acquire, hi, sceCtrlPeekBufferPositive2, h2 _ hport]

/-- The fallback of `C7_slot0_fallback` on the initial state: port 1 fails,
port 0 delivers a sample with `lx = 200`, and the one call is for axis 0 with
the table entry of 200. -/
theorem C7_slot0_fallback_witness :
    (VITA_JoystickUpdate (fun p => if p = 0 then some { zeroPad with lx := 200 } else none)
        ext_button_map analog_map 7 1 initState).queried = [1, 0] ∧
    (VITA_JoystickUpdate (fun p => if p = 0 then some { zeroPad with lx := 200 } else none)
        ext_button_map analog_map 7 1 initState).events
      = [Event.axis 7 0 (analog_map.getD 200 0)] := by
  have h := (C7_slot0_fallback
    (fun p => if p = 0 then some { zeroPad with lx := 200 } else none)
    ext_button_map analog_map 7 initState).1 { zeroPad with lx := 200 } (by decide) (by decide)
  rw [h]
  exact ⟨rfl, by simp [update, axisBlock, State.setPad, initState, zeroPad]⟩

/-! ## The curve at its ends -/

theorem truncToInt_zero : truncToInt 0 = 0 := by
  simp [truncToInt]

theorem truncToInt_intCast (n : Int) : truncToInt (n : ℚ) = n := by
  simp [truncToInt]

theorem lerp_zero (first second : SDL_Point) : lerp first second 0 = first := by
  simp [lerp, truncToInt_zero]

theorem lerp_one (first second : SDL_Point) : lerp first second 1 = second := by
  cases second
  simp only [lerp, mul_one, truncToInt_intCast]
  simp

/-- On the exact rationals the curve evaluation returns the y of the start
anchor at `t = 0` and the y of the terminal anchor at `t = 1`, and the table
loop stores them at 128, 127 and 255, 0. -/
theorem calc_bezier_y_anchors (p0 p1 p2 p3 : SDL_Point) :
    calc_bezier_y p0 p1 p2 p3 0 = p0.y ∧
    calc_bezier_y p0 p1 p2 p3 1 = p3.y ∧
    (VITA_JoystickInit p0 p1 p2 p3).getD 128 0 = p0.y ∧
    (VITA_JoystickInit p0 p1 p2 p3).getD 127 0 = - p0.y ∧
    (VITA_JoystickInit p0 p1 p2 p3).getD 255 0 = p3.y ∧
    (VITA_JoystickInit p0 p1 p2 p3).getD 0 0 = - p3.y := by
  have h0 : calc_bezier_y p0 p1 p2 p3 0 = p0.y := by
    simp [calc_bezier_y, lerp_zero]
  have h1 : calc_bezier_y p0 p1 p2 p3 1 = p3.y := by
    simp [calc_bezier_y, lerp_one]
  have e0 : ((0 : Nat) : ℚ) / 127 = 0 := by norm_num
  have e1 : ((127 : Nat) : ℚ) / 127 = 1 := by norm_num
  refine ⟨h0, h1, ?_, ?_, ?_, ?_⟩
  · have h := initLoop_upper (fun i => calc_bezier_y p0 p1 p2 p3 ((i : ℚ) / 127)) 0 (by omega)
    simp only [e0, h0] at h
    exact h
  · have h := initLoop_lower (fun i => calc_bezier_y p0 p1 p2 p3 ((i : ℚ) / 127)) 0 (by omega)
    simp only [e0, h0] at h
    exact h
  · have h := initLoop_upper (fun i => calc_bezier_y p0 p1 p2 p3 ((i : ℚ) / 127)) 127 (by omega)
    simp only [e1, h1] at h
    exact h
  · have h := initLoop_lower (fun i => calc_bezier_y p0 p1 p2 p3 ((i : ℚ) / 127)) 127 (by omega)
    simp only [e1, h1] at h
    exact h

/-! ## The curve at its ends in binary32 -/

/-- The table of the source's control points is the same whether the curve is
evaluated in binary32 or on exact rationals. -/
theorem analog_map_binary32 : VITA_JoystickInit_binary32 a b c d = analog_map := by
  unfold analog_map
  decide!

/-- The entries of the upper half are the values of the curve evaluator. -/
theorem analog_map_upper (i : Nat) (hi : i < 128) :
    analog_map.getD (i + 128) 0 = calc_bezier_y a b c d ((i : ℚ) / 127) := by
  unfold analog_map VITA_JoystickInit
  exact initLoop_upper _ i hi

/-- The evaluator of the source stays within two units below the exact value
truncated once. -/
theorem calc_bezier_y_near_spec :
    ∀ i : Fin 128,
      calc_bezier_y a b c d ((i.val : ℚ) / 127) ≤ spec_table_entry a b c d ((i.val : ℚ) / 127) ∧
      spec_table_entry a b c d ((i.val : ℚ) / 127) ≤ calc_bezier_y a b c d ((i.val : ℚ) / 127) + 2 := by
  decide!

/-- C12 as stated fails: for loop index 2 the table holds 23, while the exact
Bezier value at `t = 2/127`, truncated once, is 24. -/
theorem C12_single_truncation_counterexample :
    analog_map.getD (2 + 128) 0 = 23 ∧ spec_table_entry a b c d ((2 : ℚ) / 127) = 24 := by
  decide!

/-- C12, as the code has it: for every loop index `i` in 0..127,
`analog_map[i + 128]` is the value of the iterated interpolation in which each
of the interpolation steps truncates its increment toward zero (control points
of the source, `t` the exact rational `i / 127`); it never exceeds the exact
Bezier value truncated once and falls short of it by at most 2. -/
theorem C12_table_vs_exact_curve (i : Fin 128) :
    analog_map.getD (i.val + 128) 0 = calc_bezier_y a b c d ((i.val : ℚ) / 127) ∧
    analog_map.getD (i.val + 128) 0 ≤ spec_table_entry a b c d ((i.val : ℚ) / 127) ∧
    spec_table_entry a b c d ((i.val : ℚ) / 127) ≤ analog_map.getD (i.val + 128) 0 + 2 := by
  rw [analog_map_upper i.val i.isLt]
  exact ⟨rfl, calc_bezier_y_near_spec i⟩

/-- C13 fails on the code: the response is not the line `32767 * i / 127`. The
entry of loop index 1 is 6 where the line gives 258, and the table is within 3
units of the line at the two ends `i = 0` and `i = 127` only. -/
theorem C13_response_not_linear :
    analog_map.getD (1 + 128) 0 = 6 ∧
    ∀ i : Fin 128,
      (|(32767 * (i.val : ℚ) / 127) - (analog_map.getD (i.val + 128) 0 : ℚ)| ≤ 3
        ↔ (i.val = 0 ∨ i.val = 127)) := by
  rw [analog_map_eq]
  decide!

set_option maxRecDepth 100000 in
/-- Each entry of the table is at most the next one. -/
theorem analog_map_step :
    ∀ i : Fin 255, analog_map.getD i.val 0 ≤ analog_map.getD (i.val + 1) 0 := by
  rw [analog_map_eq]
  decide

/-- The entries of the table, read in index order, never go down. -/
theorem analog_map_mono (i j : Nat) (hij : i ≤ j) (hj : j < 256) :
    analog_map.getD i 0 ≤ analog_map.getD j 0 := by
  induction j, hij using Nat.le_induction with
  | base => exact le_refl _
  | succ k _ ih =>
    exact le_trans (ih (by omega)) (analog_map_step ⟨k, by omega⟩)

set_option maxRecDepth 100000 in
/-- The sign of the entries of the two halves of the table. -/
theorem analog_map_halves :
    ∀ i : Fin 256, (i.val < 128 → analog_map.getD i.val 0 ≤ 0) ∧
      (128 ≤ i.val → 0 ≤ analog_map.getD i.val 0) := by
  rw [analog_map_eq]
  decide

/-- C17: with the control points of the source (`t` the exact rational
`i / 127`) the table never goes down in the raw byte: for `i ≤ j` in 0..255,
`analog_map[i] ≤ analog_map[j]`; the entries of bytes 0..127 are at most 0 and
those of bytes 128..255 at least 0. -/
theorem C17_table_monotone (i j : Fin 256) (hij : i ≤ j) :
    analog_map.getD i.val 0 ≤ analog_map.getD j.val 0 ∧
    (i.val < 128 → analog_map.getD i.val 0 ≤ 0) ∧
    (128 ≤ i.val → 0 ≤ analog_map.getD i.val 0) := by
  exact ⟨analog_map_mono i.val j.val hij j.isLt, analog_map_halves i⟩

/-- The bytes 100 and 200 in `C17_table_monotone`. -/
theorem C17_table_monotone_witness :
    analog_map.getD 100 0 ≤ analog_map.getD 200 0 ∧
    ((100 : Nat) < 128 → analog_map.getD 100 0 ≤ 0) ∧
    (128 ≤ (100 : Nat) → 0 ≤ analog_map.getD 100 0) :=
  C17_table_monotone 100 200 (by decide)

/-! ## The stores of the table loop -/

/-- The traced loop computes the table of the loop and records, for every pass
made, the two indices of its stores. -/
theorem initLoopTraced_fold (curve : Nat → Int) (l : List Nat) :
    ∀ (m : List Int) (w : List Nat),
      l.foldl (initLoopBodyTraced curve) (m, w)
        = (l.foldl (initLoopBody curve) m,
           w ++ l.flatMap (fun i => [i + 128, 127 - i])) := by
  induction l with
  | nil => intro m w; simp
  | cons i rest ih =>
    intro m w
    simp only [List.foldl_cons, List.flatMap_cons]
    rw [show initLoopBodyTraced curve (m, w) i
          = (initLoopBody curve m i, w ++ [i + 128, 127 - i]) from rfl, ih]
    simp

set_option maxRecDepth 100000 in
/-- Every index below 256 occurs once among the stores of the 128 passes. -/
theorem initLoop_stores_count :
    ∀ k : Fin 256,
      ((List.range 128).flatMap (fun i => [i + 128, 127 - i])).count k.val = 1 := by
  decide!

/-- The stores of the 128 passes stay below 256. -/
theorem initLoop_stores_lt (k : Nat)
    (hk : k ∈ (List.range 128).flatMap (fun i => [i + 128, 127 - i])) : k < 256 := by
  simp only [List.mem_flatMap, List.mem_range, List.mem_cons, List.mem_singleton,
    List.not_mem_nil, or_false] at hk
  obtain ⟨i, hi, h | h⟩ := hk <;> omega

/-- C16: the table loop stores to every index in 0..255 exactly once and to no
index outside 0..255; the table it leaves has 256 entries, entry `i + 128` the
curve value of pass `i` and entry `127 - i` its negation, so no entry keeps
its initial content unwritten. -/
theorem C16_loop_stores (curve : Nat → Int) :
    (initLoopTraced curve).1 = initLoop curve ∧
    (∀ k : Nat, (initLoopTraced curve).2.count k = if k < 256 then 1 else 0) ∧
    (initLoop curve).length = 256 ∧
    ∀ i : Fin 128, (initLoop curve).getD (i.val + 128) 0 = curve i.val ∧
      (initLoop curve).getD (127 - i.val) 0 = - curve i.val := by
  have h := initLoopTraced_fold curve (List.range 128) (List.replicate 256 0) []
  refine ⟨?_, ?_, initLoop_length curve, fun i =>
    ⟨initLoop_upper curve i.val i.isLt, initLoop_lower curve i.val i.isLt⟩⟩
  · unfold initLoopTraced initLoop
    rw [h]
  · intro k
    unfold initLoopTraced
    rw [h, List.nil_append]
    split_ifs with hk
    · exact initLoop_stores_count ⟨k, hk⟩
    · exact List.count_eq_zero.mpr (fun hmem => hk (initLoop_stores_lt k hmem))

/-! ## A joystick id outside the four slots -/

/-- C19: when the slot index `id - 1` is outside 0..3, `VITA_JoystickUpdate`
asks no port, makes no call to the event sink and leaves the whole state as
it was. -/
theorem C19_index_out_of_range (peek : Int → Option SceCtrlData) (bmap : List Nat)
    (tbl : List Int) (ts id : Nat) (st : State)
    (hout : toInt32 id - 1 < 0 ∨ 3 < toInt32 id - 1) :
    (VITA_JoystickUpdate peek bmap tbl ts id st).queried = [] ∧
    (VITA_JoystickUpdate peek bmap tbl ts id st).events = [] ∧
    (VITA_JoystickUpdate peek bmap tbl ts id st).state = st := by
  unfold VITA_JoystickUpdate
  simp only
  have h0 : toInt32 id - 1 ≠ 0 := by omega
  have h1 : toInt32 id - 1 ≠ 1 := by omega
  have h2 : toInt32 id - 1 ≠ 2 := by omega
  have h3 : toInt32 id - 1 ≠ 3 := by omega
  simp [h0, h1, h2, h3]

/-- The joystick ids 0 (index -1) and 5 (index 4) in `C19_index_out_of_range`,
with a port that would deliver a pressed button. -/
theorem C19_index_out_of_range_witness :
    ((VITA_JoystickUpdate (fun _ => some { zeroPad with buttons := 0x4000 })
        ext_button_map analog_map 7 0 initState).queried = [] ∧
     (VITA_JoystickUpdate (fun _ => some { zeroPad with buttons := 0x4000 })
        ext_button_map analog_map 7 0 initState).events = [] ∧
     (VITA_JoystickUpdate (fun _ => some { zeroPad with buttons := 0x4000 })
        ext_button_map analog_map 7 0 initState).state = initState) ∧
    ((VITA_JoystickUpdate (fun _ => some { zeroPad with buttons := 0x4000 })
        ext_button_map analog_map 7 5 initState).queried = [] ∧
     (VITA_JoystickUpdate (fun _ => some { zeroPad with buttons := 0x4000 })
        ext_button_map analog_map 7 5 initState).events = [] ∧
     (VITA_JoystickUpdate (fun _ => some { zeroPad with buttons := 0x4000 })
        ext_button_map analog_map 7 5 initState).state = initState) :=
  ⟨C19_index_out_of_range _ ext_button_map analog_map 7 0 initState (Or.inl (by decide)),
   C19_index_out_of_range _ ext_button_map analog_map 7 5 initState (Or.inr (by decide))⟩

/-! ## The first update of a slot and the other slots -/

theorem analog_map_length : analog_map.length = 256 := by
  unfold analog_map VITA_JoystickInit
  exact initLoop_length _

set_option maxRecDepth 100000 in
theorem analog_map_first_unique :
    ∀ n : Fin 256, analog_map.getD n.val 0 = analog_map.getD 0 0 ↔ n.val = 0 := by
  rw [analog_map_eq]
  decide

/-- The table value of a byte differs from the one of byte 0 exactly when the
byte is not 0. -/
theorem analog_map_ne_first (n : Nat) :
    analog_map.getD n 0 ≠ analog_map.getD 0 0 ↔ 0 ≠ n := by
  by_cases hn : n < 256
  · exact not_congr ((analog_map_first_unique ⟨n, hn⟩).trans eq_comm)
  · have h1 : analog_map.getD n 0 = 0 :=
      List.getD_eq_default _ _ (by rw [analog_map_length]; omega)
    have h2 : analog_map.getD 0 0 = -32767 := by rw [analog_map_eq]; rfl
    rw [h1, h2]
    constructor
    · intro _; omega
    · intro _; decide

/-- With the changed bits equal to the new bits, the button loop calls with
`down` true, once for each table entry that has a bit set in the bitmask. -/
theorem buttonLoop_first (ts buttons : Nat) (l : List Nat) :
    ∀ i : Nat, buttonLoop ts buttons buttons i l
      = ((l.enumFrom i).filter (fun p => decide (buttons &&& p.2 ≠ 0))).map
          (fun p => Event.button ts p.1 true) := by
  induction l with
  | nil => intro i; rfl
  | cons m rest ih =>
    intro i
    simp only [buttonLoop, List.enumFrom_cons, List.filter_cons, ih (i + 1)]
    by_cases h : buttons &&& m = 0
    · simp [h]
    · simp [h]

/-- The guarded button loop of the first update. -/
theorem sent_first (ts buttons : Nat) (l : List Nat) :
    (if buttons ≠ 0 then buttonLoop ts buttons buttons 0 l else [])
      = (l.enum.filter (fun p => decide (buttons &&& p.2 ≠ 0))).map
          (fun p => Event.button ts p.1 true) := by
  by_cases hb : buttons = 0
  · subst hb
    simp
  · rw [if_pos hb, buttonLoop_first]
    rfl

theorem axisBlock_fst (tbl : List Int) (ts ax : Nat) (old : Fin 4 → Nat)
    (index : Fin 4) (v : Nat) :
    (axisBlock tbl ts ax old index v).1
      = if old index ≠ v then [Event.axis ts ax (tbl.getD v 0)] else [] := by
  unfold axisBlock
  split_ifs <;> rfl

theorem finRange_six : List.finRange 6 = [0, 1, 2, 3, 4, 5] := by
  decide

/-- The six axis blocks on a stored sample of zero bytes: one call for each
channel whose byte is not 0, in channel order. -/
theorem axisBlocks_first (tbl : List Int) (ts : Nat) (raw : SceCtrlData) :
    (if (0 : Nat) ≠ raw.lx then [Event.axis ts 0 (tbl.getD raw.lx 0)] else []) ++
      (if (0 : Nat) ≠ raw.ly then [Event.axis ts 1 (tbl.getD raw.ly 0)] else []) ++
      (if (0 : Nat) ≠ raw.rx then [Event.axis ts 2 (tbl.getD raw.rx 0)] else []) ++
      (if (0 : Nat) ≠ raw.ry then [Event.axis ts 3 (tbl.getD raw.ry 0)] else []) ++
      (if (0 : Nat) ≠ raw.lt then [Event.axis ts 4 (tbl.getD raw.lt 0)] else []) ++
      (if (0 : Nat) ≠ raw.rt then [Event.axis ts 5 (tbl.getD raw.rt 0)] else []) =
    (([0, 1, 2, 3, 4, 5] : List (Fin 6)).filter (fun k => decide (0 ≠ raw.axisByte k))).map
      (fun k => Event.axis ts k.val (tbl.getD (raw.axisByte k) 0)) := by
  simp only [List.filter_cons, List.filter_nil, SceCtrlData.axisByte, decide_eq_true_eq]
  split_ifs <;> rfl

/-- C14: the first update of a slot (its stored previous sample all zero,
table of the source) makes an axis call for channel `k` exactly when
`analog_map[raw byte k]` differs from `analog_map[0]`, in channel order 0..5
and with the table entry of the byte as value, followed by one button call
with `down` true for every entry of `ext_button_map` that has a bit set in the
sample, in table order, and no other call. -/
theorem C14_first_update (ts : Nat) (index : Fin 4) (raw : SceCtrlData) (st : State)
    (hfirst : st.old index = zeroPad) :
    (update ext_button_map analog_map ts index raw st).1 =
      ((List.finRange 6).filter (fun k =>
          decide (analog_map.getD (raw.axisByte k) 0 ≠ analog_map.getD 0 0))).map
        (fun k => Event.axis ts k.val (analog_map.getD (raw.axisByte k) 0)) ++
      (ext_button_map.enum.filter (fun p => decide (raw.buttons &&& p.2 ≠ 0))).map
        (fun p => Event.button ts p.1 true) := by
  simp only [State.old, zeroPad, SceCtrlData.mk.injEq] at hfirst
  obtain ⟨hb, hlx, hly, hrx, hry, hlt, hrt⟩ := hfirst
  rw [update_events]
  simp only [axisBlock_fst, hb, hlx, hly, hrx, hry, hlt, hrt, Nat.zero_xor]
  rw [sent_first, finRange_six]
  simp only [analog_map_ne_first]
  rw [axisBlocks_first]

/-- The sample of the specification's scenario on slot 0 of the initial state:
the four stick bytes 128 give four axis calls with value 0, the two trigger
bytes 0 give none, and there is no button call. -/
theorem C14_first_update_witness :
    (update ext_button_map analog_map 7 0
        { buttons := 0, lx := 128, ly := 128, rx := 128, ry := 128, lt := 0, rt := 0 }
        initState).1 =
      [Event.axis 7 0 0, Event.axis 7 1 0, Event.axis 7 2 0, Event.axis 7 3 0] :=
  (C14_first_update 7 0
      { buttons := 0, lx := 128, ly := 128, rx := 128, ry := 128, lt := 0, rt := 0 }
      initState rfl).trans (by rw [analog_map_eq]; decide)

/-- C15: `update` on a slot leaves the stored previous sample and the buffer
of every other slot as they were, whether run alone or inside
`VITA_JoystickUpdate`, and the calls it makes are the same in any two states
that agree on the stored previous sample of the slot. -/
theorem C15_other_slots_untouched (peek : Int → Option SceCtrlData) (bmap : List Nat)
    (tbl : List Int) (ts : Nat) (index j : Fin 4) (raw : SceCtrlData) (st st2 : State)
    (hj : j ≠ index) (hsame : st.old index = st2.old index) :
    (update bmap tbl ts index raw st).2.old j = st.old j ∧
    (update bmap tbl ts index raw st).2.pad j = st.pad j ∧
    (VITA_JoystickUpdate peek bmap tbl ts (index.val + 1) st).state.old j = st.old j ∧
    (VITA_JoystickUpdate peek bmap tbl ts (index.val + 1) st).state.pad j = st.pad j ∧
    (update bmap tbl ts index raw st).1 = (update bmap tbl ts index raw st2).1 := by
  refine ⟨update_old_ne _ _ _ _ _ _ _ hj, update_pad _ _ _ _ _ _ _, ?_, ?_, ?_⟩
  · rw [VITA_JoystickUpdate_slot]
    simp only [updateSlot]
    rw [update_old_ne _ _ _ _ _ _ _ hj, old_setPad]
  · rw [VITA_JoystickUpdate_slot]
    simp only [updateSlot]
    rw [update_pad, pad_setPad_ne _ _ _ _ hj]
  · simp only [State.old, SceCtrlData.mk.injEq] at hsame
    obtain ⟨hb, hlx, hly, hrx, hry, hlt, hrt⟩ := hsame
    rw [update_events, update_events]
    simp only [axisBlock_fst, hb, hlx, hly, hrx, hry, hlt, hrt]

/-- Slot 0 updated with `lx = 200`, seen from slot 1, in the initial state and
in a state where slot 1 holds another stored sample: in `C15_other_slots_untouched`
slot 1 keeps its stored sample and buffer, and the calls for slot 0 are the same. -/
theorem C15_other_slots_untouched_witness :
    (update ext_button_map analog_map 7 0 { zeroPad with lx := 200 } initState).2.old 1
      = initState.old 1 ∧
    (update ext_button_map analog_map 7 0 { zeroPad with lx := 200 } initState).2.pad 1
      = initState.pad 1 ∧
    (VITA_JoystickUpdate (fun _ => none) ext_button_map analog_map 7 ((0 : Fin 4).val + 1)
        initState).state.old 1 = initState.old 1 ∧
    (VITA_JoystickUpdate (fun _ => none) ext_button_map analog_map 7 ((0 : Fin 4).val + 1)
        initState).state.pad 1 = initState.pad 1 ∧
    (update ext_button_map analog_map 7 0 { zeroPad with lx := 200 } initState).1
      = (update ext_button_map analog_map 7 0 { zeroPad with lx := 200 }
          (update ext_button_map analog_map 3 1 { zeroPad with lx := 50 } initState).2).1 :=
  C15_other_slots_untouched (fun _ => none) ext_button_map analog_map 7 0 1
    { zeroPad with lx := 200 } initState
    (update ext_button_map analog_map 3 1 { zeroPad with lx := 50 } initState).2
    (by decide)
    (update_old_ne ext_button_map analog_map 3 1 0 { zeroPad with lx := 50 } initState
      (by decide)).symm

/-! ## Replaying the button calls -/

/-- Axis calls leave the tracked button as it is. -/
theorem foldl_replayStep_of_isAxis (i : Nat) (l : List Event)
    (h : ∀ e ∈ l, e.isAxis = true) :
    ∀ acc : Bool, l.foldl (replayStep i) acc = acc := by
  induction l with
  | nil => intro acc; rfl
  | cons e rest ih =>
    intro acc
    have he := h e (List.mem_cons_self _ _)
    cases e with
    | axis t k v =>
      simp only [List.foldl_cons, replayStep]
      exact ih (fun x hx => h x (List.mem_cons_of_mem _ hx)) acc
    | button t k dn => simp [Event.isAxis] at he

/-- Replaying the calls of the button loop: the tracked button takes the new
value of its mask when its mask meets the changed bits, and keeps its value
otherwise. -/
theorem foldl_replayStep_buttonLoop (ts changed buttons i : Nat) (l : List Nat) :
    ∀ (k : Nat) (acc : Bool),
      (buttonLoop ts changed buttons k l).foldl (replayStep i) acc
        = if k ≤ i ∧ changed &&& l.getD (i - k) 0 ≠ 0
          then decide (buttons &&& l.getD (i - k) 0 ≠ 0) else acc := by
  induction l with
  | nil => intro k acc; simp [buttonLoop]
  | cons m rest ih =>
    intro k acc
    simp only [buttonLoop, List.foldl_append, ih (k + 1)]
    rcases Nat.lt_trichotomy i k with hlt | heq | hgt
    · have h1 : ¬ (k + 1 ≤ i) := by omega
      have h2 : ¬ (k ≤ i) := by omega
      have h3 : k ≠ i := by omega
      simp only [h1, h2, false_and, if_false]
      split_ifs <;> simp [replayStep, h3]
    · subst heq
      have h1 : ¬ (i + 1 ≤ i) := by omega
      simp only [h1, false_and, if_false, le_refl, true_and, Nat.sub_self,
        List.getD_cons_zero]
      split_ifs <;> simp [replayStep]
    · have h1 : k + 1 ≤ i := by omega
      have h2 : k ≤ i := by omega
      have h3 : k ≠ i := by omega
      have h4 : i - k = (i - (k + 1)) + 1 := by omega
      have h5 : (if changed &&& m ≠ 0 then
          [Event.button ts k (decide (buttons &&& m ≠ 0))] else []).foldl (replayStep i) acc
          = acc := by
        split_ifs <;> simp [replayStep, h3]
      rw [h5, h4, List.getD_cons_succ]
      simp only [h1, h2, true_and]

/-- Bits that did not change under a mask read the same under that mask. -/
theorem and_eq_of_xor_and_eq_zero (x y m : Nat) (h : (x ^^^ y) &&& m = 0) :
    x &&& m = y &&& m := by
  rw [Nat.and_xor_distrib_right] at h
  exact Nat.xor_eq_zero.mp h

/-- Replaying the calls of one update from the flag of the stored bitmask gives
the flag of the new bitmask. -/
theorem foldl_replayStep_update (bmap : List Nat) (tbl : List Int) (ts : Nat)
    (index : Fin 4) (raw : SceCtrlData) (st : State) (i : Nat) :
    (update bmap tbl ts index raw st).1.foldl (replayStep i)
        (decide (st.old_buttons index &&& bmap.getD i 0 ≠ 0))
      = decide (raw.buttons &&& bmap.getD i 0 ≠ 0) := by
  rw [update_events, List.foldl_append,
    foldl_replayStep_of_isAxis i _ (axisBlocks_isAxis tbl ts index raw st)]
  by_cases hch : st.old_buttons index ^^^ raw.buttons = 0
  · rw [Nat.xor_eq_zero.mp hch]
    simp
  · rw [if_pos hch, foldl_replayStep_buttonLoop]
    simp only [Nat.zero_le, true_and, Nat.sub_zero]
    split_ifs with hm
    · rfl
    · rw [and_eq_of_xor_and_eq_zero _ _ _ (not_not.mp hm)]

theorem update_old_buttons_self (bmap : List Nat) (tbl : List Int) (ts : Nat)
    (index : Fin 4) (raw : SceCtrlData) (st : State) :
    (update bmap tbl ts index raw st).2.old_buttons index = raw.buttons := by
  simp [update]

/-- Replaying the calls of a sequence of updates keeps the tracked button equal
to the flag of the stored bitmask. -/
theorem foldl_replayStep_runUpdates (bmap : List Nat) (tbl : List Int) (index : Fin 4)
    (i : Nat) (ss : List (Nat × SceCtrlData)) :
    ∀ st : State,
      (runUpdates bmap tbl index ss st).1.foldl (replayStep i)
          (decide (st.old_buttons index &&& bmap.getD i 0 ≠ 0))
        = decide ((runUpdates bmap tbl index ss st).2.old_buttons index
            &&& bmap.getD i 0 ≠ 0) := by
  induction ss with
  | nil => intro st; rfl
  | cons k rest ih =>
    intro st
    simp only [runUpdates, List.foldl_append, foldl_replayStep_update]
    have h := ih (update bmap tbl k.1 index k.2 st).2
    rw [update_old_buttons_self] at h
    exact h

/-- After a sequence of updates the stored bitmask is the one of the last
sample, or the one of the start when there was no update. -/
theorem runUpdates_old_buttons (bmap : List Nat) (tbl : List Int) (index : Fin 4)
    (ss : List (Nat × SceCtrlData)) :
    ∀ st : State,
      (runUpdates bmap tbl index ss st).2.old_buttons index
        = (ss.getLast?.map (fun k => k.2.buttons)).getD (st.old_buttons index) := by
  induction ss with
  | nil => intro st; rfl
  | cons k rest ih =>
    intro st
    simp only [runUpdates]
    rw [ih, update_old_buttons_self]
    cases rest with
    | nil => rfl
    | cons k2 rest2 =>
      rw [List.getLast?_cons_cons]
      cases h : (k2 :: rest2).getLast? with
      | none => simp at h
      | some x => rfl

/-- C18: for every finite sequence of updates of one slot from the initial
all-zero state and every button number `i`, replaying the button calls made
gives the current state of the button: the `down` of the most recent button
call for `i` (released when there was none) equals whether the bitmask of the
last sample meets `ext_button_map[i]` (no sample, or no such table entry: the
button is released). -/
theorem C18_replay_reconstructs_buttons (bmap : List Nat) (tbl : List Int)
    (index : Fin 4) (ss : List (Nat × SceCtrlData)) (i : Nat) :
    replayButton i (runUpdates bmap tbl index ss initState).1
      = decide ((ss.getLast?.map (fun k => k.2.buttons)).getD 0 &&& bmap.getD i 0 ≠ 0) := by
  have h := foldl_replayStep_runUpdates bmap tbl index i ss initState
  rw [runUpdates_old_buttons] at h
  simpa [replayButton, initState] using h

end VitaJoystick
